import Mathlib

/-!
Shallow embedding of `src/f5_lb_waf_export.py`: the WAF-resolution core of the
F5 XC load-balancer WAF export script (firewall locator, mode classifier,
route resolver, export aggregator), with theorems settling the spec claims.

Modelling conventions:
* A firewall GET (`requests.get` + `raise_for_status`) is modelled by an
  environment `Env : String → String → FetchResult` mapping (nspace, name)
  to either a response body (`FetchResult.ok`) or an HTTP error with a status
  code (`FetchResult.err`); the Python `raise` is modelled by `Except.error`
  carrying the status code.
* Python string truthiness is modelled by `String` with `""` for the falsy
  values (`None` and the empty string behave identically in this script).
* A fetched firewall JSON body is `FwObj`: `emptyObj` is the falsy `{}`,
  `objSpec m b` is a truthy dict whose `spec` block has a `monitoring` key
  iff `m` and a `blocking` key iff `b` (a truthy dict with no `spec` key
  behaves exactly like `objSpec false false` in this program).
* Each locator call also returns the list of (nspace, name) GETs it
  performed, making "no lookup performed / exactly one fallback lookup"
  statable.
-/

/-- A fetched app-firewall JSON body, as observed by this program. -/
inductive FwObj where
  | emptyObj : FwObj
  | objSpec (monitoring blocking : Bool) : FwObj
deriving DecidableEq

/-- Python truthiness of the fetched dict: `{}` is falsy, any other dict truthy. -/
def FwObj.truthy : FwObj → Bool
  | .emptyObj => false
  | .objSpec _ _ => true

/-- Outcome of one firewall GET: a JSON body, or an HTTP error status. -/
inductive FetchResult where
  | ok (fw : FwObj) : FetchResult
  | err (status : Nat) : FetchResult
deriving DecidableEq

/-- The control-plane firewall store: (nspace, firewall name) ↦ GET outcome. -/
abbrev Env : Type := String → String → FetchResult

/-- Python `a or b` on strings (`""` is the only falsy string here). -/
def strOr (a b : String) : String := if a = "" then b else a

/-- A GET log entry: the (nspace, name) pair of one attempted firewall fetch. -/
abbrev Query := String × String

/-- Locator `get_app_firewall_details(nspace, waf_name)` from the source
(lines 79–110): empty name short-circuits to `({}, None)`; otherwise GET in
the requesting nspace, on 404 fall back to `shared` (unless the requesting
nspace already is `shared`), re-raise any non-404 HTTP error, and resolve a
final 404 to `({}, None)`.  Returns ((details, source nspace), GETs made). -/
def get_app_firewall_details (env : Env) (nspace waf_name : String) :
    Except Nat ((FwObj × Option String) × List Query) :=
  if waf_name = "" then
    .ok ((.emptyObj, none), [])
  else
    match env nspace waf_name with
    | .ok fw => .ok ((fw, some nspace), [(nspace, waf_name)])
    | .err s =>
      if s ≠ 404 then .error s
      else if nspace ≠ "shared" then
        match env "shared" waf_name with
        | .ok fw => .ok ((fw, some "shared"), [(nspace, waf_name), ("shared", waf_name)])
        | .err s2 =>
          if s2 ≠ 404 then .error s2
          else .ok ((.emptyObj, none), [(nspace, waf_name), ("shared", waf_name)])
      else .ok ((.emptyObj, none), [(nspace, waf_name)])

/-- Classifier `get_waf_mode` from the source (lines 112–120): falsy details give `""`;
otherwise `monitoring` key wins, then `blocking`, else `""`. -/
def get_waf_mode : FwObj → String
  | .emptyObj => ""
  | .objSpec m b => if m then "monitoring" else if b then "blocking" else ""

/-- One route of a load balancer, as this script reads it: the `simple_route`
path dict (as an ordered key/value list; `[]` for an absent or empty dict),
whether `disable_waf` is a key of `advanced_options`, and the
`advanced_options['app_firewall']` entry (`none` when the key is absent,
`some name` when present, with `""` for a falsy name field).  A route with no
`simple_route` key reads exactly like `⟨[], false, none⟩`. -/
structure Route where
  path : List (String × String)
  disable_waf : Bool
  app_firewall : Option String
deriving DecidableEq

/-- A load balancer configuration, as this script reads it: metadata
nspace/name (`""` when absent), whether `disable_waf` is a key of `spec`,
the `spec['app_firewall']` entry (`none` when the key is absent, `some name`
with `""` for a falsy name field), and the ordered `spec['routes']` list. -/
structure LbDetails where
  nspace : String
  name : String
  disable_waf : Bool
  app_firewall : Option String
  routes : List Route
deriving DecidableEq

/-- One output row (nspace, lb_name, route, waf_name, waf_mode). -/
structure Row where
  nspace : String
  lb_name : String
  route : String
  waf_name : String
  waf_mode : String
deriving DecidableEq

/-- The route-path descriptor (lines 156–162): semicolon-joined `k=v` pairs of
the path dict in its own order, or the sentinel `NA` for an empty dict. -/
def route_path (r : Route) : String :=
  if r.path = [] then "NA"
  else String.intercalate "; " (r.path.map fun kv => kv.1 ++ "=" ++ kv.2)

/-- The default-binding computation (lines 132–141): the pair
(default_waf_name, default_waf_mode) as the two Python variables hold them
just before the default row is appended, plus the GETs made. -/
def default_binding (env : Env) (d : LbDetails) :
    Except Nat ((String × String) × List Query) :=
  if d.disable_waf ∨ d.app_firewall = none then
    .ok (("waf_disabled", "NA"), [])
  else
    let default_waf_name := (d.app_firewall.getD "")
    match (if default_waf_name ≠ "" then
             get_app_firewall_details env d.nspace default_waf_name
           else .ok ((.emptyObj, none), [])) with
    | .error s => .error s
    | .ok ((info, srcNs), log) =>
      let mode := get_waf_mode info
      let nm := if srcNs = some "shared" ∧ default_waf_name ≠ "" then
                  default_waf_name ++ " (shared)"
                else default_waf_name
      .ok ((nm, mode), log)

/-- One iteration of the per-route loop (lines 152–187): the row emitted for
`route` given the default binding variables, plus the GETs made. -/
def routeRow (env : Env) (nspace lb_name dName dMode : String) (r : Route) :
    Except Nat (Row × List Query) :=
  let rp := route_path r
  if r.disable_waf then
    .ok (⟨nspace, lb_name, rp, "waf_disabled", "NA"⟩, [])
  else
    match r.app_firewall with
    | some nm =>
      if nm ≠ "" then
        match get_app_firewall_details env nspace nm with
        | .error s => .error s
        | .ok ((waf_info, source_ns), log) =>
          if waf_info.truthy = false then
            .ok (⟨nspace, lb_name, rp, "waf_disabled", "NA"⟩, log)
          else
            let mode := get_waf_mode waf_info
            let nm2 := if source_ns = some "shared" then nm ++ " (shared)" else nm
            .ok (⟨nspace, lb_name, rp, nm2, mode⟩, log)
      else
        .ok (⟨nspace, lb_name, rp, strOr dName "waf_disabled", strOr dMode "NA"⟩, [])
    | none =>
      .ok (⟨nspace, lb_name, rp, strOr dName "waf_disabled", strOr dMode "NA"⟩, [])

/-- The per-route loop over a route list, preserving order and propagating the
first raised error. -/
def routesRows (env : Env) (nspace lb_name dName dMode : String) :
    List Route → Except Nat (List Row × List Query)
  | [] => .ok ([], [])
  | r :: rs =>
    match routeRow env nspace lb_name dName dMode r with
    | .error s => .error s
    | .ok (row, log) =>
      match routesRows env nspace lb_name dName dMode rs with
      | .error s => .error s
      | .ok (rows, logs) => .ok (row :: rows, log ++ logs)

/-- Resolver `extract_waf_rows` (lines 122–189): `[]` for a falsy config; otherwise the
default row (route field `NA`, `or`-coerced name and mode) followed by one row
per route in stored order.  Also returns the GETs made. -/
def extract_waf_rows (env : Env) (lb : Option LbDetails) :
    Except Nat (List Row × List Query) :=
  match lb with
  | none => .ok ([], [])
  | some d =>
    match default_binding env d with
    | .error s => .error s
    | .ok ((dName, dMode), log0) =>
      let defaultRow : Row :=
        ⟨d.nspace, d.name, "NA", strOr dName "waf_disabled", strOr dMode "NA"⟩
      match routesRows env d.nspace d.name dName dMode d.routes with
      | .error s => .error s
      | .ok (rows, logs) => .ok (defaultRow :: rows, log0 ++ logs)

/-- The inner main loop (lines 198–201): rows of the load balancers of one
nspace, concatenated in listing order. -/
def exportLbs (env : Env) (details : String → String → Option LbDetails)
    (ns : String) : List String → Except Nat (List Row)
  | [] => .ok []
  | lb :: lbs =>
    match extract_waf_rows env (details ns lb) with
    | .error s => .error s
    | .ok (rows, _) =>
      match exportLbs env details ns lbs with
      | .error s => .error s
      | .ok rest => .ok (rows ++ rest)

/-- The outer main loop (lines 196–201): concatenation over the enumerated
namespaces in order (`lbsOf` models `get_http_loadbalancers`, `details`
models `get_lb_details`). -/
def exportRows (env : Env) (lbsOf : String → List String)
    (details : String → String → Option LbDetails) :
    List String → Except Nat (List Row)
  | [] => .ok []
  | ns :: nss =>
    match exportLbs env details ns (lbsOf ns) with
    | .error s => .error s
    | .ok r =>
      match exportRows env lbsOf details nss with
      | .error s => .error s
      | .ok rest => .ok (r ++ rest)

deriving instance DecidableEq for Except

/-- A store in which every firewall GET answers 404. -/
def envAll404 : Env := fun _ _ => .err 404

/-- A store holding exactly one firewall, `fw1` in namespace `ns1`, whose spec
has a `monitoring` key. -/
def envOwnFw1 : Env := fun ns nm =>
  if ns = "ns1" ∧ nm = "fw1" then .ok (.objSpec true false) else .err 404

/-- A store holding exactly one firewall, `fw1` in namespace `shared`, whose
spec has a `blocking` key. -/
def envSharedFw1 : Env := fun ns nm =>
  if ns = "shared" ∧ nm = "fw1" then .ok (.objSpec false true) else .err 404

/-- A store in which every firewall GET fails with HTTP 500. -/
def envErr500 : Env := fun _ _ => .err 500

/-- No string with the display suffix ` (shared)` appended equals the
`waf_disabled` sentinel. -/
theorem append_shared_ne_waf_disabled (nm : String) : nm ++ " (shared)" ≠ "waf_disabled" := by
  intro h
  have h2 : nm.data ++ " (shared)".data = "waf_disabled".data := congrArg String.data h
  have h3 : " (shared)".data <:+ "waf_disabled".data := ⟨nm.data, h2⟩
  exact absurd h3 (by decide)

/-- Appending the display suffix never yields the (falsy) empty string. -/
theorem append_shared_ne_empty (nm : String) : nm ++ " (shared)" ≠ "" := by
  intro h
  have h2 : nm.data ++ " (shared)".data = "".data := congrArg String.data h
  simp at h2

theorem strOr_of_ne (a b : String) (h : a ≠ "") : strOr a b = a := by
  simp [strOr, h]

theorem strOr_empty (b : String) : strOr "" b = b := by
  simp [strOr]

/-- Shape of a successful `extract_waf_rows` on a truthy config: the default
row built from the default binding, followed by the route rows. -/
theorem extract_ok_elim (env : Env) (d : LbDetails) (rows : List Row) (log : List Query)
    (h : extract_waf_rows env (some d) = .ok (rows, log)) :
    ∃ dN dM L0 rrows L1,
      default_binding env d = .ok ((dN, dM), L0) ∧
      routesRows env d.nspace d.name dN dM d.routes = .ok (rrows, L1) ∧
      rows = ⟨d.nspace, d.name, "NA", strOr dN "waf_disabled", strOr dM "NA"⟩ :: rrows ∧
      log = L0 ++ L1 := by
  simp only [extract_waf_rows] at h
  split at h
  · simp at h
  · rename_i dN dM L0 hdb
    split at h
    · simp at h
    · rename_i rrows L1 hrr
      simp only [Except.ok.injEq, Prod.mk.injEq] at h
      exact ⟨dN, dM, L0, rrows, L1, hdb, hrr, h.1.symm, h.2.symm⟩

/-- Every row of a successful route loop comes from `routeRow` on one of the
routes of the list. -/
theorem routesRows_mem (env : Env) (ns lbn dN dM : String) (rs : List Route)
    (rws : List Row) (lg : List Query)
    (h : routesRows env ns lbn dN dM rs = .ok (rws, lg)) :
    ∀ row ∈ rws, ∃ r ∈ rs, ∃ l, routeRow env ns lbn dN dM r = .ok (row, l) := by
  induction rs generalizing rws lg with
  | nil =>
    simp only [routesRows, Except.ok.injEq, Prod.mk.injEq] at h
    rw [← h.1]
    intro row hrow
    simp at hrow
  | cons r rs ih =>
    rw [routesRows] at h
    cases hr : routeRow env ns lbn dN dM r with
    | error s => rw [hr] at h; simp at h
    | ok p =>
      obtain ⟨row0, l0⟩ := p
      rw [hr] at h
      cases hrs : routesRows env ns lbn dN dM rs with
      | error s => rw [hrs] at h; simp at h
      | ok q =>
        obtain ⟨rows0, ls0⟩ := q
        rw [hrs] at h
        simp only [Except.ok.injEq, Prod.mk.injEq] at h
        intro row hrow
        rw [← h.1] at hrow
        rcases List.mem_cons.mp hrow with h1 | h1
        · exact ⟨r, List.mem_cons_self r rs, l0, by rw [h1]; exact hr⟩
        · obtain ⟨r', hr', l', hl'⟩ := ih rows0 ls0 hrs row h1
          exact ⟨r', List.mem_cons_of_mem r hr', l', hl'⟩

/-- Case analysis of one successful `routeRow`: fixed nspace/lb_name/route
fields, and the waf fields come from the disable branch, the inherit branch,
or a located truthy override. -/
theorem routeRow_spec (env : Env) (ns lbn dN dM : String) (r : Route)
    (row : Row) (l : List Query)
    (h : routeRow env ns lbn dN dM r = .ok (row, l)) :
    row.nspace = ns ∧ row.lb_name = lbn ∧ row.route = route_path r ∧
    ((row.waf_name = "waf_disabled" ∧ row.waf_mode = "NA")
     ∨ (row.waf_name = strOr dN "waf_disabled" ∧ row.waf_mode = strOr dM "NA")
     ∨ (∃ nm info src lq, r.app_firewall = some nm ∧ nm ≠ "" ∧
          get_app_firewall_details env ns nm = .ok ((info, src), lq) ∧ info.truthy = true ∧
          (row.waf_name = nm ∨ row.waf_name = nm ++ " (shared)") ∧
          row.waf_mode = get_waf_mode info)) := by
  unfold routeRow at h
  split at h
  · simp only [Except.ok.injEq, Prod.mk.injEq] at h
    rw [← h.1]
    exact ⟨rfl, rfl, rfl, Or.inl ⟨rfl, rfl⟩⟩
  · split at h
    · rename_i nm haf
      split at h
      · rename_i hnm
        split at h
        · simp at h
        · rename_i info src lq hres
          split at h
          · rename_i hft
            simp only [Except.ok.injEq, Prod.mk.injEq] at h
            rw [← h.1]
            exact ⟨rfl, rfl, rfl, Or.inl ⟨rfl, rfl⟩⟩
          · rename_i hft
            simp only [Except.ok.injEq, Prod.mk.injEq] at h
            rw [← h.1]
            refine ⟨rfl, rfl, rfl, Or.inr (Or.inr ⟨nm, info, src, lq, haf, hnm, hres,
              by simpa using hft, ?_, rfl⟩)⟩
            by_cases hsrc : src = some "shared" <;> simp [hsrc]
      · simp only [Except.ok.injEq, Prod.mk.injEq] at h
        rw [← h.1]
        exact ⟨rfl, rfl, rfl, Or.inr (Or.inl ⟨rfl, rfl⟩)⟩
    · simp only [Except.ok.injEq, Prod.mk.injEq] at h
      rw [← h.1]
      exact ⟨rfl, rfl, rfl, Or.inr (Or.inl ⟨rfl, rfl⟩)⟩

/-- Case analysis of a successful `default_binding`: the disabled sentinel, an
empty reference name, or a completed lookup (suffixed or not). -/
theorem default_binding_spec (env : Env) (d : LbDetails) (dN dM : String) (L : List Query)
    (h : default_binding env d = .ok ((dN, dM), L)) :
    (dN = "waf_disabled" ∧ dM = "NA")
  ∨ (dN = "" ∧ dM = "")
  ∨ (∃ nm info src lq, d.app_firewall = some nm ∧ nm ≠ "" ∧
       get_app_firewall_details env d.nspace nm = .ok ((info, src), lq) ∧
       (dN = nm ∨ dN = nm ++ " (shared)") ∧ dM = get_waf_mode info) := by
  unfold default_binding at h
  split at h
  · simp only [Except.ok.injEq, Prod.mk.injEq] at h
    exact Or.inl ⟨h.1.1.symm, h.1.2.symm⟩
  · rename_i hcond
    have haf : ∃ nm, d.app_firewall = some nm := by
      cases hx : d.app_firewall with
      | none => exact absurd (Or.inr hx) hcond
      | some nm => exact ⟨nm, rfl⟩
    obtain ⟨nm, haf⟩ := haf
    rw [haf] at h
    simp only [Option.getD_some] at h
    by_cases hnm : nm = ""
    · subst hnm
      simp only [ne_eq, not_true_eq_false, if_false, reduceIte] at h
      simp only [Except.ok.injEq, Prod.mk.injEq] at h
      refine Or.inr (Or.inl ⟨?_, ?_⟩)
      · rw [← h.1.1]
        simp [get_waf_mode]
      · rw [← h.1.2]
        simp [get_waf_mode]
    · rw [if_pos hnm] at h
      split at h
      · simp at h
      · rename_i info src lq hres
        simp only [Except.ok.injEq, Prod.mk.injEq] at h
        refine Or.inr (Or.inr ⟨nm, info, src, lq, haf, hnm, hres, ?_, h.1.2.symm⟩)
        rw [← h.1.1]
        by_cases hsrc : src = some "shared" <;> simp [hsrc, hnm]

/-- Locator, empty name: `({}, None)` with no GET performed. -/
theorem gafd_empty_name (env : Env) (ns : String) :
    get_app_firewall_details env ns "" = .ok ((.emptyObj, none), []) := by
  simp [get_app_firewall_details]

/-- Locator, found in the requesting nspace: one GET, source is that nspace. -/
theorem gafd_found_own (env : Env) (ns nm : String) (fw : FwObj)
    (hnm : nm ≠ "") (h : env ns nm = .ok fw) :
    get_app_firewall_details env ns nm = .ok ((fw, some ns), [(ns, nm)]) := by
  simp [get_app_firewall_details, hnm, h]

/-- Locator, 404 in the requesting nspace then found in `shared`: exactly one
fallback GET, source is `shared`. -/
theorem gafd_found_shared (env : Env) (ns nm : String) (fw : FwObj)
    (hnm : nm ≠ "") (h1 : env ns nm = .err 404) (hns : ns ≠ "shared")
    (h2 : env "shared" nm = .ok fw) :
    get_app_firewall_details env ns nm =
      .ok ((fw, some "shared"), [(ns, nm), ("shared", nm)]) := by
  simp [get_app_firewall_details, hnm, h1, hns, h2]

/-- Locator, 404 everywhere with a requesting nspace other than `shared`:
`({}, None)` after exactly one fallback GET. -/
theorem gafd_dangling (env : Env) (ns nm : String)
    (hnm : nm ≠ "") (h1 : env ns nm = .err 404) (hns : ns ≠ "shared")
    (h2 : env "shared" nm = .err 404) :
    get_app_firewall_details env ns nm =
      .ok ((.emptyObj, none), [(ns, nm), ("shared", nm)]) := by
  simp [get_app_firewall_details, hnm, h1, hns, h2]

/-- Locator, 404 with `shared` as the requesting nspace: `({}, None)` with no
second GET of the same nspace. -/
theorem gafd_dangling_shared (env : Env) (nm : String)
    (hnm : nm ≠ "") (h1 : env "shared" nm = .err 404) :
    get_app_firewall_details env "shared" nm =
      .ok ((.emptyObj, none), [("shared", nm)]) := by
  simp [get_app_firewall_details, hnm, h1]

/-- Locator, non-404 HTTP failure in the requesting nspace: re-raised. -/
theorem gafd_raise_first (env : Env) (ns nm : String) (s : Nat)
    (hnm : nm ≠ "") (h : env ns nm = .err s) (hs : s ≠ 404) :
    get_app_firewall_details env ns nm = .error s := by
  simp [get_app_firewall_details, hnm, h, hs]

/-- Locator, 404 then a non-404 HTTP failure in the `shared` fallback:
re-raised. -/
theorem gafd_raise_fallback (env : Env) (ns nm : String) (s : Nat)
    (hnm : nm ≠ "") (h1 : env ns nm = .err 404) (hns : ns ≠ "shared")
    (h2 : env "shared" nm = .err s) (hs : s ≠ 404) :
    get_app_firewall_details env ns nm = .error s := by
  simp [get_app_firewall_details, hnm, h1, hns, h2, hs]

/-- Default binding, disabled branch: the marker is set or the reference key
is absent. -/
theorem default_binding_disabled (env : Env) (d : LbDetails)
    (h : d.disable_waf = true ∨ d.app_firewall = none) :
    default_binding env d = .ok (("waf_disabled", "NA"), []) := by
  rcases h with h | h <;> simp [default_binding, h]

/-- Default binding, lookup branch: a nonempty reference name resolves through
the locator; the suffix is appended exactly when the source is `shared`. -/
theorem default_binding_lookup (env : Env) (d : LbDetails) (nm : String)
    (info : FwObj) (src : Option String) (lq : List Query)
    (hdw : d.disable_waf = false) (haf : d.app_firewall = some nm) (hnm : nm ≠ "")
    (hres : get_app_firewall_details env d.nspace nm = .ok ((info, src), lq)) :
    default_binding env d =
      .ok ((if src = some "shared" then nm ++ " (shared)" else nm,
            get_waf_mode info), lq) := by
  simp [default_binding, hdw, haf, hnm, hres]

/-- Route loop body, inherit branch: no disable marker and no (truthy)
override name fall through to the default binding, with no GET. -/
theorem routeRow_inherit (env : Env) (ns lbn dN dM : String) (r : Route)
    (hdw : r.disable_waf = false)
    (haf : r.app_firewall = none ∨ r.app_firewall = some "") :
    routeRow env ns lbn dN dM r =
      .ok (⟨ns, lbn, route_path r, strOr dN "waf_disabled", strOr dM "NA"⟩, []) := by
  rcases haf with h | h <;> simp [routeRow, hdw, h]

/-- Route loop body, override branch: a nonempty override name resolves
through the locator; a falsy result degrades to the disabled sentinel,
otherwise the suffix is appended exactly when the source is `shared`. -/
theorem routeRow_override (env : Env) (ns lbn dN dM : String) (r : Route)
    (nm : String) (info : FwObj) (src : Option String) (lq : List Query)
    (hdw : r.disable_waf = false) (haf : r.app_firewall = some nm) (hnm : nm ≠ "")
    (hres : get_app_firewall_details env ns nm = .ok ((info, src), lq)) :
    routeRow env ns lbn dN dM r =
      if info.truthy = false then
        .ok (⟨ns, lbn, route_path r, "waf_disabled", "NA"⟩, lq)
      else
        .ok (⟨ns, lbn, route_path r,
              if src = some "shared" then nm ++ " (shared)" else nm,
              get_waf_mode info⟩, lq) := by
  by_cases ht : info.truthy = false <;> simp [routeRow, hdw, haf, hnm, hres, ht]

/-- Fields of the rows of a successful route loop: one row per route, in
order, with the loop's nspace and lb name and the route's path descriptor. -/
theorem routesRows_fields (env : Env) (ns lbn dN dM : String) (rs : List Route)
    (rws : List Row) (lg : List Query)
    (h : routesRows env ns lbn dN dM rs = .ok (rws, lg)) :
    rws.length = rs.length ∧
    ∀ i (hi : i < rws.length) (hi2 : i < rs.length),
      (rws.get ⟨i, hi⟩).nspace = ns ∧ (rws.get ⟨i, hi⟩).lb_name = lbn ∧
      (rws.get ⟨i, hi⟩).route = route_path (rs.get ⟨i, hi2⟩) := by
  induction rs generalizing rws lg with
  | nil =>
    simp only [routesRows, Except.ok.injEq, Prod.mk.injEq] at h
    rw [← h.1]
    exact ⟨rfl, by intro i hi hi2; simp at hi⟩
  | cons r rs ih =>
    rw [routesRows] at h
    cases hr : routeRow env ns lbn dN dM r with
    | error s => rw [hr] at h; simp at h
    | ok p =>
      obtain ⟨row0, l0⟩ := p
      rw [hr] at h
      cases hrs : routesRows env ns lbn dN dM rs with
      | error s => rw [hrs] at h; simp at h
      | ok q =>
        obtain ⟨rows0, ls0⟩ := q
        rw [hrs] at h
        simp only [Except.ok.injEq, Prod.mk.injEq] at h
        obtain ⟨hf0, hf1, hf2, _⟩ := routeRow_spec env ns lbn dN dM r row0 l0 hr
        obtain ⟨hlen, hfields⟩ := ih rows0 ls0 hrs
        rw [← h.1]
        refine ⟨by simp [hlen], ?_⟩
        intro i hi hi2
        cases i with
        | zero => exact ⟨hf0, hf1, hf2⟩
        | succ j =>
          have hj : j < rows0.length := by simpa using hi
          have hj2 : j < rs.length := by simpa using hi2
          exact hfields j hj hj2

/-- C6: `classify` returns `monitoring` when the located object's spec block
has a `monitoring` key (checked first, so also when both keys are present),
otherwise `blocking` when it has a `blocking` key, otherwise the empty mode;
an absent/empty (falsy) input also yields the empty mode. -/
theorem C6_mode_classifier :
    get_waf_mode .emptyObj = ""
  ∧ (∀ b, get_waf_mode (.objSpec true b) = "monitoring")
  ∧ get_waf_mode (.objSpec false true) = "blocking"
  ∧ get_waf_mode (.objSpec false false) = "" :=
  ⟨rfl, fun _ => rfl, rfl, rfl⟩

/-- C9: a falsy (absent) load balancer configuration yields an empty row
sequence — no synthetic default row — and the export continues without error:
dropping such a load balancer from the listing does not change the output. -/
theorem C9_falsy_config (env : Env) (details : String → String → Option LbDetails)
    (ns lb : String) (lbs : List String) :
    extract_waf_rows env none = .ok ([], [])
  ∧ (details ns lb = none →
      exportLbs env details ns (lb :: lbs) = exportLbs env details ns lbs) := by
  refine ⟨rfl, fun h => ?_⟩
  rw [exportLbs, h]
  cases hrest : exportLbs env details ns lbs with
  | error s => simp [extract_waf_rows]
  | ok rest => simp [extract_waf_rows, hrest]

/-- Witness for C9 at a concrete store and listing. -/
theorem C9_falsy_config_witness :
    exportLbs envAll404 (fun _ _ => none) "ns1" ["lb1"] =
      exportLbs envAll404 (fun _ _ => none) "ns1" [] :=
  (C9_falsy_config envAll404 (fun _ _ => none) "ns1" "lb1" []).2 rfl

/-- C10: a route whose advanced options carry an `app_firewall` entry with a
falsy name field behaves exactly like a route with no override entry: it
inherits the default binding and performs no firewall GET (empty query log),
rather than being disabled or an error. -/
theorem C10_empty_override_name (env : Env) (ns lbn dN dM : String) (r : Route)
    (haf : r.app_firewall = some "") :
    routeRow env ns lbn dN dM r = routeRow env ns lbn dN dM ⟨r.path, r.disable_waf, none⟩
  ∧ (r.disable_waf = false →
      routeRow env ns lbn dN dM r =
        .ok (⟨ns, lbn, route_path r, strOr dN "waf_disabled", strOr dM "NA"⟩, [])) := by
  constructor
  · by_cases hdw : r.disable_waf <;> simp [routeRow, haf, hdw] <;> rfl
  · intro hdw
    exact routeRow_inherit env ns lbn dN dM r hdw (Or.inr haf)

/-- Witness for C10 at a concrete route with an empty override name. -/
theorem C10_empty_override_name_witness :
    routeRow envAll404 "ns1" "lb1" "fwD" "monitoring" ⟨[], false, some ""⟩ =
      .ok (⟨"ns1", "lb1", "NA", "fwD", "monitoring"⟩, []) := by
  have h := (C10_empty_override_name envAll404 "ns1" "lb1" "fwD" "monitoring"
    ⟨[], false, some ""⟩ rfl).2 rfl
  simpa [route_path, strOr] using h

/-- C4: locator fallback ladder — an empty name resolves to (absent, absent)
with no GET; a hit in the requesting nspace ends the search; a 404 there
triggers exactly one fallback GET in `shared` unless the requesting nspace
already is `shared`; a 404 in the fallback (or in `shared` as requesting
nspace) resolves to (absent, absent) rather than an error. -/
theorem C4_locator_fallback (env : Env) (ns nm : String) (fw : FwObj) :
    (nm = "" → get_app_firewall_details env ns nm = .ok ((.emptyObj, none), []))
  ∧ (nm ≠ "" → env ns nm = .ok fw →
      get_app_firewall_details env ns nm = .ok ((fw, some ns), [(ns, nm)]))
  ∧ (nm ≠ "" → env ns nm = .err 404 → ns ≠ "shared" → env "shared" nm = .ok fw →
      get_app_firewall_details env ns nm =
        .ok ((fw, some "shared"), [(ns, nm), ("shared", nm)]))
  ∧ (nm ≠ "" → env ns nm = .err 404 → ns ≠ "shared" → env "shared" nm = .err 404 →
      get_app_firewall_details env ns nm =
        .ok ((.emptyObj, none), [(ns, nm), ("shared", nm)]))
  ∧ (nm ≠ "" → env ns nm = .err 404 → ns = "shared" →
      get_app_firewall_details env ns nm = .ok ((.emptyObj, none), [(ns, nm)])) := by
  refine ⟨?_, gafd_found_own env ns nm fw, gafd_found_shared env ns nm fw,
    gafd_dangling env ns nm, ?_⟩
  · intro h; subst h; exact gafd_empty_name env ns
  · intro hnm h1 hns
    subst hns
    exact gafd_dangling_shared env nm hnm h1

/-- Witness for C4 at a concrete store: `fw1` found in `shared` after a 404
in `ns1`, with exactly the two GETs logged. -/
theorem C4_locator_fallback_witness :
    get_app_firewall_details envSharedFw1 "ns1" "fw1" =
      .ok ((.objSpec false true, some "shared"), [("ns1", "fw1"), ("shared", "fw1")]) :=
  (C4_locator_fallback envSharedFw1 "ns1" "fw1" (.objSpec false true)).2.2.1
    (by decide) (by decide) (by decide) (by decide)

/-- C5: any non-404 HTTP failure of a firewall GET — in the requesting nspace
or in the `shared` fallback — is re-raised by the locator, propagates through
the route resolver, and aborts the whole export run; it is never converted
into an absent firewall or a disabled binding. -/
theorem C5_non404_fatal (env : Env) (ns nm : String) (s : Nat) (d : LbDetails)
    (lbsOf : String → List String) (details : String → String → Option LbDetails)
    (lb : String) (lbs : List String) (nss : List String) :
    (nm ≠ "" → env ns nm = .err s → s ≠ 404 →
      get_app_firewall_details env ns nm = .error s)
  ∧ (nm ≠ "" → env ns nm = .err 404 → ns ≠ "shared" → env "shared" nm = .err s →
      s ≠ 404 → get_app_firewall_details env ns nm = .error s)
  ∧ (d.disable_waf = false → d.app_firewall = some nm → nm ≠ "" →
      env d.nspace nm = .err s → s ≠ 404 →
      extract_waf_rows env (some d) = .error s)
  ∧ (details ns lb = some d → d.nspace = ns → d.disable_waf = false →
      d.app_firewall = some nm → nm ≠ "" → env ns nm = .err s → s ≠ 404 →
      lbsOf ns = lb :: lbs →
      exportRows env lbsOf details (ns :: nss) = .error s) := by
  refine ⟨gafd_raise_first env ns nm s, gafd_raise_fallback env ns nm s, ?_, ?_⟩
  · intro hdw haf hnm herr hs
    have hdb : default_binding env d = .error s := by
      simp [default_binding, hdw, haf, hnm,
        gafd_raise_first env d.nspace nm s hnm herr hs]
    simp [extract_waf_rows, hdb]
  · intro hdet hns hdw haf hnm herr hs hlbs
    have hext : extract_waf_rows env (some d) = .error s := by
      have hdb : default_binding env d = .error s := by
        rw [← hns] at herr
        simp [default_binding, hdw, haf, hnm,
          gafd_raise_first env d.nspace nm s hnm herr hs]
      simp [extract_waf_rows, hdb]
    simp [exportRows, hlbs, exportLbs, hdet, hext]

/-- Witness for C5 at a concrete run: an all-500 store aborts a one-namespace,
one-load-balancer export with the 500. -/
theorem C5_non404_fatal_witness :
    exportRows envErr500 (fun _ => ["lb1"])
      (fun _ _ => some ⟨"ns1", "lb1", false, some "fw1", []⟩) ["ns1"] = .error 500 :=
  (C5_non404_fatal envErr500 "ns1" "fw1" 500 ⟨"ns1", "lb1", false, some "fw1", []⟩
    (fun _ => ["lb1"]) (fun _ _ => some ⟨"ns1", "lb1", false, some "fw1", []⟩)
    "lb1" [] []).2.2.2 rfl rfl rfl rfl (by decide) rfl (by decide) rfl

/-- C1 fails on the code: with no disable marker and a default reference
`fw1` found neither in `ns1` nor in `shared` (both GETs 404), the default row
keeps the firewall name `fw1` (the name is truthy, so `or "waf_disabled"`
does not fire) with mode `NA`, instead of the claimed `waf_disabled`. -/
theorem C1_counterexample :
    extract_waf_rows envAll404 (some ⟨"ns1", "lb1", false, some "fw1", []⟩) =
      .ok ([⟨"ns1", "lb1", "NA", "fw1", "NA"⟩], [("ns1", "fw1"), ("shared", "fw1")])
    ∧ "fw1" ≠ "waf_disabled" := by decide

/-- C1 (amended): with no disable marker and a nonempty default reference
found neither in the load balancer's nspace nor in `shared`, the emitted
default row carries the referenced name itself (no suffix) and mode exactly
`NA`; only an empty reference name degrades the name to `waf_disabled`. -/
theorem C1_dangling_default (env : Env) (d : LbDetails) (nm : String)
    (rows : List Row) (log : List Query)
    (hdw : d.disable_waf = false) (haf : d.app_firewall = some nm) (hnm : nm ≠ "")
    (h1 : env d.nspace nm = .err 404) (h2 : env "shared" nm = .err 404)
    (hext : extract_waf_rows env (some d) = .ok (rows, log)) :
    rows.head? = some ⟨d.nspace, d.name, "NA", nm, "NA"⟩ := by
  have hres : ∃ L, get_app_firewall_details env d.nspace nm =
      .ok ((FwObj.emptyObj, none), L) := by
    by_cases hsh : d.nspace = "shared"
    · rw [hsh]
      exact ⟨[("shared", nm)], gafd_dangling_shared env nm hnm (hsh ▸ h1)⟩
    · exact ⟨[(d.nspace, nm), ("shared", nm)], gafd_dangling env d.nspace nm hnm h1 hsh h2⟩
  obtain ⟨L, hres⟩ := hres
  have hdb := default_binding_lookup env d nm .emptyObj none L hdw haf hnm hres
  have hdb' : default_binding env d = .ok ((nm, ""), L) := by
    simpa [get_waf_mode] using hdb
  obtain ⟨dN, dM, L0, rrows, L1, hdb2, hrr, hrows, -⟩ :=
    extract_ok_elim env d rows log hext
  have heq := hdb'.symm.trans hdb2
  simp only [Except.ok.injEq, Prod.mk.injEq] at heq
  obtain ⟨⟨hdN, hdM⟩, -⟩ := heq
  subst hdN
  subst hdM
  rw [hrows]
  simp [strOr_of_ne nm "waf_disabled" hnm, strOr_empty]

/-- Witness for C1 (amended) at a concrete dangling reference. -/
theorem C1_dangling_default_witness :
    ([⟨"ns1", "lb1", "NA", "fw1", "NA"⟩] : List Row).head? =
      some ⟨"ns1", "lb1", "NA", "fw1", "NA"⟩ :=
  C1_dangling_default envAll404 ⟨"ns1", "lb1", false, some "fw1", []⟩ "fw1"
    [⟨"ns1", "lb1", "NA", "fw1", "NA"⟩] [("ns1", "fw1"), ("shared", "fw1")]
    rfl rfl (by decide) rfl rfl (by decide)

/-- C7 fails on the code: a load balancer living in nspace `shared` whose
default firewall is found in `shared` — i.e. in the requesting nspace itself
— still gets the ` (shared)` display suffix, because the code keys the suffix
on the source nspace alone. -/
theorem C7_counterexample :
    extract_waf_rows envSharedFw1 (some ⟨"shared", "lb1", false, some "fw1", []⟩) =
      .ok ([⟨"shared", "lb1", "NA", "fw1 (shared)", "blocking"⟩], [("shared", "fw1")])
    ∧ "fw1 (shared)" ≠ "fw1" := by decide

/-- C7 (amended): the displayed name carries the ` (shared)` suffix exactly
when the object was located in the `shared` nspace — via the fallback from a
different requesting nspace, or directly because the requesting nspace is
itself `shared`; a firewall found in a requesting nspace other than `shared`
never carries the suffix.  Both for the default binding and for route
overrides. -/
theorem C7_shared_suffix (env : Env) (d : LbDetails) (ns lbn dN dM nm : String)
    (r : Route) (fw : FwObj) :
    (d.disable_waf = false → d.app_firewall = some nm → nm ≠ "" →
      d.nspace ≠ "shared" → env d.nspace nm = .ok fw →
      default_binding env d = .ok ((nm, get_waf_mode fw), [(d.nspace, nm)]))
  ∧ (d.disable_waf = false → d.app_firewall = some nm → nm ≠ "" →
      d.nspace ≠ "shared" → env d.nspace nm = .err 404 → env "shared" nm = .ok fw →
      default_binding env d =
        .ok ((nm ++ " (shared)", get_waf_mode fw), [(d.nspace, nm), ("shared", nm)]))
  ∧ (d.disable_waf = false → d.app_firewall = some nm → nm ≠ "" →
      d.nspace = "shared" → env d.nspace nm = .ok fw →
      default_binding env d = .ok ((nm ++ " (shared)", get_waf_mode fw), [(d.nspace, nm)]))
  ∧ (r.disable_waf = false → r.app_firewall = some nm → nm ≠ "" → fw.truthy = true →
      ns ≠ "shared" → env ns nm = .ok fw →
      routeRow env ns lbn dN dM r =
        .ok (⟨ns, lbn, route_path r, nm, get_waf_mode fw⟩, [(ns, nm)]))
  ∧ (r.disable_waf = false → r.app_firewall = some nm → nm ≠ "" → fw.truthy = true →
      ns ≠ "shared" → env ns nm = .err 404 → env "shared" nm = .ok fw →
      routeRow env ns lbn dN dM r =
        .ok (⟨ns, lbn, route_path r, nm ++ " (shared)", get_waf_mode fw⟩,
             [(ns, nm), ("shared", nm)])) := by
  refine ⟨?_, ?_, ?_, ?_, ?_⟩
  · intro hdw haf hnm hns h
    have hres := gafd_found_own env d.nspace nm fw hnm h
    have hdb := default_binding_lookup env d nm fw (some d.nspace)
      [(d.nspace, nm)] hdw haf hnm hres
    simpa [hns] using hdb
  · intro hdw haf hnm hns h1 h2
    have hres := gafd_found_shared env d.nspace nm fw hnm h1 hns h2
    have hdb := default_binding_lookup env d nm fw (some "shared")
      [(d.nspace, nm), ("shared", nm)] hdw haf hnm hres
    simpa using hdb
  · intro hdw haf hnm hns h
    have hres := gafd_found_own env d.nspace nm fw hnm h
    have hdb := default_binding_lookup env d nm fw (some d.nspace)
      [(d.nspace, nm)] hdw haf hnm hres
    simpa [hns] using hdb
  · intro hdw haf hnm hft hns h
    have hres := gafd_found_own env ns nm fw hnm h
    have hrr := routeRow_override env ns lbn dN dM r nm fw (some ns)
      [(ns, nm)] hdw haf hnm hres
    simpa [hft, hns] using hrr
  · intro hdw haf hnm hft hns h1 h2
    have hres := gafd_found_shared env ns nm fw hnm h1 hns h2
    have hrr := routeRow_override env ns lbn dN dM r nm fw (some "shared")
      [(ns, nm), ("shared", nm)] hdw haf hnm hres
    simpa [hft] using hrr

/-- Witness for C7 (amended): a default reference found in the requesting
nspace `ns1` resolves without the suffix. -/
theorem C7_shared_suffix_witness :
    default_binding envOwnFw1 ⟨"ns1", "lb1", false, some "fw1", []⟩ =
      .ok (("fw1", "monitoring"), [("ns1", "fw1")]) := by
  have h := (C7_shared_suffix envOwnFw1 ⟨"ns1", "lb1", false, some "fw1", []⟩
    "ns1" "lb1" "x" "y" "fw1" ⟨[], false, none⟩ (.objSpec true false)).1
    rfl rfl (by decide) (by decide) (by decide)
  simpa [get_waf_mode] using h

/-- C3 fails on the code: a load balancer with no default reference and no
disable marker on its one route still emits a route row differing from the
default row when the route carries an `app_firewall` override that resolves
(the claim forgot to exclude overrides). -/
theorem C3_counterexample :
    extract_waf_rows envOwnFw1
      (some ⟨"ns1", "lb1", false, none, [⟨[], false, some "fw1"⟩]⟩) =
      .ok ([⟨"ns1", "lb1", "NA", "waf_disabled", "NA"⟩,
            ⟨"ns1", "lb1", "NA", "fw1", "monitoring"⟩], [("ns1", "fw1")])
    ∧ (("fw1" : String), ("monitoring" : String)) ≠ ("waf_disabled", "NA") := by decide

/-- C3 (amended): with no default firewall reference, no route disable marker
AND no (truthy) route override name, every emitted row — the default row and
every route row — carries the same pair, namely (`waf_disabled`, `NA`). -/
theorem C3_no_default_no_override (env : Env) (d : LbDetails)
    (rows : List Row) (log : List Query)
    (haf : d.app_firewall = none)
    (hr : ∀ r ∈ d.routes, r.disable_waf = false ∧
          (r.app_firewall = none ∨ r.app_firewall = some ""))
    (hext : extract_waf_rows env (some d) = .ok (rows, log)) :
    ∀ row ∈ rows, (row.waf_name, row.waf_mode) =
      (("waf_disabled" : String), ("NA" : String)) := by
  obtain ⟨dN, dM, L0, rrows, L1, hdb, hrr, hrows, -⟩ :=
    extract_ok_elim env d rows log hext
  have hdb' := default_binding_disabled env d (Or.inr haf)
  have heq := hdb'.symm.trans hdb
  simp only [Except.ok.injEq, Prod.mk.injEq] at heq
  obtain ⟨⟨hdN, hdM⟩, -⟩ := heq
  subst hdN
  subst hdM
  intro row hrow
  rw [hrows] at hrow
  rcases List.mem_cons.mp hrow with h | h
  · subst h
    simp [strOr]
  · obtain ⟨r, hrmem, l, hl⟩ :=
      routesRows_mem env d.nspace d.name _ _ d.routes rrows L1 hrr row h
    obtain ⟨hdwr, hafr⟩ := hr r hrmem
    rw [routeRow_inherit env d.nspace d.name _ _ r hdwr hafr] at hl
    simp only [Except.ok.injEq, Prod.mk.injEq] at hl
    rw [← hl.1]
    simp [strOr]

/-- Witness for C3 (amended) at a concrete one-route config. -/
theorem C3_no_default_no_override_witness :
    ((⟨"ns1", "lb1", "NA", "waf_disabled", "NA"⟩ : Row).waf_name,
     (⟨"ns1", "lb1", "NA", "waf_disabled", "NA"⟩ : Row).waf_mode) =
      (("waf_disabled" : String), ("NA" : String)) :=
  C3_no_default_no_override envAll404 ⟨"ns1", "lb1", false, none, [⟨[], false, none⟩]⟩
    [⟨"ns1", "lb1", "NA", "waf_disabled", "NA"⟩, ⟨"ns1", "lb1", "NA", "waf_disabled", "NA"⟩]
    [] rfl (by decide) (by decide) ⟨"ns1", "lb1", "NA", "waf_disabled", "NA"⟩ (by decide)

/-- C2 fails on the code: a dangling default reference yields a default row
whose mode is `NA` (the empty classified mode is `or`-coerced to `NA` at
line 148) while its firewall name is `fw2`, not `waf_disabled` — so mode `NA`
does not imply name `waf_disabled`. -/
theorem C2_counterexample :
    extract_waf_rows envAll404 (some ⟨"ns2", "lb2", false, some "fw2", []⟩) =
      .ok ([⟨"ns2", "lb2", "NA", "fw2", "NA"⟩], [("ns2", "fw2"), ("shared", "fw2")])
    ∧ (⟨"ns2", "lb2", "NA", "fw2", "NA"⟩ : Row).waf_mode = "NA"
    ∧ (⟨"ns2", "lb2", "NA", "fw2", "NA"⟩ : Row).waf_name ≠ "waf_disabled" := by decide

/-- C2 (amended): (a) in every emitted row, name `waf_disabled` does imply
mode `NA`, provided no configured reference is literally named
`waf_disabled`; (b) for a route-override row the converse also holds — mode
`NA` only with name `waf_disabled` — and a located truthy override with no
recognizable mode key surfaces its classified (possibly empty) mode; (c) the
classifier never produces `NA`, so only default/inherited rows (via the
`or`-coercion) and disabled/degraded rows can carry `NA`. -/
theorem C2_mode_na_iff_amended :
    (∀ (env : Env) (d : LbDetails) (rows : List Row) (log : List Query),
      (∀ nm, d.app_firewall = some nm → nm ≠ "waf_disabled") →
      (∀ r ∈ d.routes, ∀ nm, r.app_firewall = some nm → nm ≠ "waf_disabled") →
      extract_waf_rows env (some d) = .ok (rows, log) →
      ∀ row ∈ rows, row.waf_name = "waf_disabled" → row.waf_mode = "NA")
  ∧ (∀ (env : Env) (ns lbn dN dM nm : String) (r : Route) (row : Row) (l : List Query),
      r.disable_waf = false → r.app_firewall = some nm → nm ≠ "" →
      routeRow env ns lbn dN dM r = .ok (row, l) →
      (row.waf_mode = "NA" → row.waf_name = "waf_disabled")
      ∧ (∀ info src lq, get_app_firewall_details env ns nm = .ok ((info, src), lq) →
          info.truthy = true → row.waf_mode = get_waf_mode info))
  ∧ (∀ info : FwObj, get_waf_mode info ≠ "NA") := by
  have hC : ∀ info : FwObj, get_waf_mode info ≠ "NA" := by
    intro info
    cases info with
    | emptyObj => decide
    | objSpec m b => cases m <;> cases b <;> decide
  refine ⟨?_, ?_, hC⟩
  · intro env d rows log h1 h2 hext row hrow hname
    obtain ⟨dN, dM, L0, rrows, L1, hdb, hrr, hrows, -⟩ :=
      extract_ok_elim env d rows log hext
    have hdefault : strOr dN "waf_disabled" = "waf_disabled" → strOr dM "NA" = "NA" := by
      intro hname'
      rcases default_binding_spec env d dN dM L0 hdb with
        ⟨h3, h4⟩ | ⟨h3, h4⟩ | ⟨nm, info, src, lq, haf', hnm', hres, hcase, hmode⟩
      · rw [h4]; simp [strOr]
      · rw [h4]; simp [strOr]
      · exfalso
        have hdNne : dN ≠ "" := by
          rcases hcase with h5 | h5
          · rw [h5]; exact hnm'
          · rw [h5]; exact append_shared_ne_empty nm
        rw [strOr_of_ne dN "waf_disabled" hdNne] at hname'
        rcases hcase with h5 | h5
        · exact h1 nm haf' (by rw [← h5]; exact hname')
        · exact append_shared_ne_waf_disabled nm (by rw [← h5]; exact hname')
    rw [hrows] at hrow
    rcases List.mem_cons.mp hrow with h | h
    · subst h
      exact hdefault hname
    · obtain ⟨r, hrmem, l, hl⟩ :=
        routesRows_mem env d.nspace d.name dN dM d.routes rrows L1 hrr row h
      rcases (routeRow_spec env d.nspace d.name dN dM r row l hl).2.2.2 with
        ⟨-, h4⟩ | ⟨h3, h4⟩ | ⟨nm, info, src, lq, haf', hnm', hres, hft, hcase, hmode⟩
      · exact h4
      · rw [h4]
        exact hdefault (h3 ▸ hname)
      · exfalso
        rcases hcase with h5 | h5
        · exact h2 r hrmem nm haf' (by rw [← h5]; exact hname)
        · exact append_shared_ne_waf_disabled nm (by rw [← h5]; exact hname)
  · intro env ns lbn dN dM nm r row l hdw haf hnm hl
    cases hres : get_app_firewall_details env ns nm with
    | error s =>
      have hbad : routeRow env ns lbn dN dM r = .error s := by
        simp [routeRow, hdw, haf, hnm, hres]
      rw [hbad] at hl
      simp at hl
    | ok p =>
      obtain ⟨⟨info, src⟩, lq⟩ := p
      have hrr := routeRow_override env ns lbn dN dM r nm info src lq hdw haf hnm hres
      by_cases hft : info.truthy = false
      · rw [hrr, if_pos hft] at hl
        simp only [Except.ok.injEq, Prod.mk.injEq] at hl
        rw [← hl.1]
        refine ⟨fun _ => rfl, ?_⟩
        intro info' src' lq' hres' hft'
        simp only [Except.ok.injEq, Prod.mk.injEq] at hres'
        rw [← hres'.1.1] at hft'
        rw [hft'] at hft
        simp at hft
      · rw [hrr, if_neg hft] at hl
        simp only [Except.ok.injEq, Prod.mk.injEq] at hl
        rw [← hl.1]
        constructor
        · intro hmode
          exact absurd hmode (hC info)
        · intro info' src' lq' hres' hft'
          simp only [Except.ok.injEq, Prod.mk.injEq] at hres'
          rw [← hres'.1.1]

/-- Witness for C2 (amended): part (a) applied to a disabled load balancer. -/
theorem C2_mode_na_iff_amended_witness :
    (⟨"ns1", "lb1", "NA", "waf_disabled", "NA"⟩ : Row).waf_mode = "NA" :=
  C2_mode_na_iff_amended.1 envAll404 ⟨"ns1", "lb1", true, none, []⟩
    [⟨"ns1", "lb1", "NA", "waf_disabled", "NA"⟩] []
    (by simp) (by simp) (by decide)
    ⟨"ns1", "lb1", "NA", "waf_disabled", "NA"⟩ (by simp) rfl

/-- C8: the resolver emits the synthetic default row first (route field `NA`,
the load balancer's nspace and name), followed by exactly one row per route in
stored order (row i+1 carries route i's path descriptor); the overall export
is the pure concatenation of the per-load-balancer row lists, in namespace
enumeration order and, within a namespace, listing order, with no
deduplication. -/
theorem C8_row_order (env : Env) (d : LbDetails) (rows : List Row) (log : List Query)
    (lbsOf : String → List String) (details : String → String → Option LbDetails)
    (ns lb : String) (lbs nss : List String) (r1 r2 : List Row) (l1 : List Query) :
    (extract_waf_rows env (some d) = .ok (rows, log) →
      rows.length = d.routes.length + 1 ∧
      (∃ r0 rest, rows = r0 :: rest ∧ r0.route = "NA" ∧ r0.nspace = d.nspace ∧
        r0.lb_name = d.name ∧
        ∀ i (hi : i < rest.length) (hi2 : i < d.routes.length),
          (rest.get ⟨i, hi⟩).nspace = d.nspace ∧ (rest.get ⟨i, hi⟩).lb_name = d.name ∧
          (rest.get ⟨i, hi⟩).route = route_path (d.routes.get ⟨i, hi2⟩)))
  ∧ (exportLbs env details ns [] = .ok [])
  ∧ (extract_waf_rows env (details ns lb) = .ok (r1, l1) →
      exportLbs env details ns lbs = .ok r2 →
      exportLbs env details ns (lb :: lbs) = .ok (r1 ++ r2))
  ∧ (exportRows env lbsOf details [] = .ok [])
  ∧ (exportLbs env details ns (lbsOf ns) = .ok r1 →
      exportRows env lbsOf details nss = .ok r2 →
      exportRows env lbsOf details (ns :: nss) = .ok (r1 ++ r2)) := by
  refine ⟨?_, rfl, ?_, rfl, ?_⟩
  · intro hext
    obtain ⟨dN, dM, L0, rrows, L1, hdb, hrr, hrows, -⟩ :=
      extract_ok_elim env d rows log hext
    obtain ⟨hlen, hfields⟩ :=
      routesRows_fields env d.nspace d.name dN dM d.routes rrows L1 hrr
    subst hrows
    refine ⟨by simp [hlen], ⟨_, rrows, rfl, rfl, rfl, rfl, ?_⟩⟩
    intro i hi hi2
    exact hfields i hi hi2
  · intro h1 h2
    simp [exportLbs, h1, h2]
  · intro h1 h2
    simp [exportRows, h1, h2]

/-- Witness for C8: a one-namespace, one-load-balancer export is the
default-row list of that load balancer concatenated with nothing. -/
theorem C8_row_order_witness :
    exportLbs envAll404 (fun _ _ => some ⟨"ns1", "lb1", true, none, []⟩) "ns1" ["lb1"] =
      .ok [⟨"ns1", "lb1", "NA", "waf_disabled", "NA"⟩] := by
  have h := (C8_row_order envAll404 ⟨"ns1", "lb1", true, none, []⟩ [] []
    (fun _ => ["lb1"]) (fun _ _ => some ⟨"ns1", "lb1", true, none, []⟩)
    "ns1" "lb1" [] [] [⟨"ns1", "lb1", "NA", "waf_disabled", "NA"⟩] [] []).2.2.1
    (by decide) rfl
  simpa using h
